import Mathlib

/-!
Verification of the RBAC coverage validator of konflux-release-data-ci.

The repository ships a single Go adapter, `tools/rbac-validator.go`, which
decodes a `ValidationInput` from stdin, calls the Kubernetes coverage engine
`validation.Covers(referenceRules, userRules)` from
k8s.io/component-helpers/auth/rbac/validation, and emits a `ValidationOutput`.
The engine itself is not part of the repository sources; it is modelled here
from the design document (spec sections 3 and 4).  The adapter is translated
directly from `tools/rbac-validator.go`.
-/

namespace RbacValidator

/-- Modelled from the spec: the `PolicyRule` data model of spec section 3.
The engine code (k8s.io/component-helpers `validation`) is not under the
repository sources; only its caller is.  Fields in the spec's order. -/
structure PolicyRule where
  apiGroups : List String
  resources : List String
  verbs : List String
  resourceNames : List String
  nonResourceURLs : List String
  deriving DecidableEq, Repr

/-- Modelled from the spec: the `AtomicRule` of spec section 3 — at most one
apiGroup and one resource (resource-style) or one nonResourceURL (URL-style),
with the original verbs and resourceNames kept unchanged. -/
inductive AtomicRule where
  | resource (apiGroup resourceKind : String) (verbs resourceNames : List String)
  | url (nonResourceURL : String) (verbs : List String)
  deriving DecidableEq, Repr

/-- The verbs carried by an atomic rule (unchanged by decomposition). -/
def AtomicRule.verbs : AtomicRule → List String
  | .resource _ _ v _ => v
  | .url _ v => v

/-- Modelled from the spec: the Rule Decomposer of spec section 4.1 — the
cross-product of apiGroups × resources, plus one atom per nonResourceURL,
each retaining the original verbs and resourceNames. -/
def decompose (rule : PolicyRule) : List AtomicRule :=
  (rule.apiGroups.flatMap fun g =>
    rule.resources.map fun r => AtomicRule.resource g r rule.verbs rule.resourceNames)
  ++ rule.nonResourceURLs.map fun u => AtomicRule.url u rule.verbs

/-- Modelled from the spec: verb check 3 of spec section 4.2 — owner verbs
contain the wildcard or are a superset of the candidate's verbs. -/
def verbsCover (ownerVerbs candVerbs : List String) : Bool :=
  ownerVerbs.contains "*" || candVerbs.all fun v => ownerVerbs.contains v

/-- Modelled from the spec: resourceNames check 4 of spec section 4.2 — owner
names empty (unconstrained), or candidate names a non-empty subset of the
owner's. -/
def resourceNamesCover (ownerNames candNames : List String) : Bool :=
  ownerNames.isEmpty || (!candNames.isEmpty && candNames.all fun n => ownerNames.contains n)

/-- Modelled from the spec: URL check 5 of spec section 4.2 — full wildcard,
exact match, or trailing-star prefix match. -/
def urlCovers (ownerURL candURL : String) : Bool :=
  ownerURL == "*" || ownerURL == candURL ||
    (ownerURL.endsWith "*" && candURL.startsWith (ownerURL.dropRight 1))

/-- Modelled from the spec: the Atomic Coverage Predicate of spec section 4.2.
Group and resource match by wildcard or exact string equality; a resource-style
atom never covers a URL-style atom or vice versa. -/
def covers (owner candidate : AtomicRule) : Bool :=
  match owner, candidate with
  | .resource og ores ovs ons, .resource cg cres cvs cns =>
      (og == "*" || og == cg) && (ores == "*" || ores == cres) &&
        verbsCover ovs cvs && resourceNamesCover ons cns
  | .url ou ovs, .url cu cvs => urlCovers ou cu && verbsCover ovs cvs
  | _, _ => false

/-- Modelled from the spec: the Coverage Engine of spec section 4.3 —
decompose both sides, a candidate atom is covered when any owner atom covers
it, collect the uncovered atoms, and report `true` iff none remain. -/
def checkCoverage (referenceRules requestedRules : List PolicyRule) :
    Bool × List AtomicRule :=
  let ownerAtoms := referenceRules.flatMap decompose
  let candidateAtoms := requestedRules.flatMap decompose
  let uncovered := candidateAtoms.filter fun c => !(ownerAtoms.any fun o => covers o c)
  (uncovered.isEmpty, uncovered)

/-- Input structure of `tools/rbac-validator.go`: `userRules` and
`referenceRules`. -/
structure ValidationInput where
  userRules : List PolicyRule
  referenceRules : List PolicyRule
  deriving DecidableEq, Repr

/-- Output structure of `tools/rbac-validator.go`: a `covers` boolean and an
optional `error` string (`omitempty`: `none` means the field is absent). -/
structure ValidationOutput where
  covers : Bool
  error : Option String
  deriving DecidableEq, Repr

/-- The adapter `main` of `tools/rbac-validator.go` as a pure function from
the decode result to the emitted output record and the process exit code:
on decode failure it emits `covers=false` with the error message and exits 1;
otherwise it emits the first component of `Covers(referenceRules, userRules)`
with no error field and exits 0. -/
def runAdapter : Except String ValidationInput → ValidationOutput × Nat
  | .error e => (⟨false, some ("Error decoding input: " ++ e)⟩, 1)
  | .ok input => (⟨(checkCoverage input.referenceRules input.userRules).1, none⟩, 0)

/-- Modelled from the spec: a JSON value, the wire format of spec section 6.
The repository sources contain the `ValidationInput` struct with its JSON
field tags but not the decoder (Go's encoding/json), which is modelled here. -/
inductive Json where
  | null
  | bool (b : Bool)
  | num (n : Int)
  | str (s : String)
  | arr (elements : List Json)
  | obj (fields : List (String × Json))

/-- Modelled from the spec: object-key lookup as Go's encoding/json performs
it — keys are processed in order, a later duplicate overwrites an earlier one,
so the last occurrence wins. -/
def lookupField (fields : List (String × Json)) (key : String) : Option Json :=
  (fields.reverse.find? fun f => f.1 == key).map Prod.snd

/-- Modelled from the spec: decoding a JSON value into a `[]string` field —
`null` leaves the zero value (empty list), an array must contain only
strings, anything else is a type error. -/
def decodeStringList : Json → Except String (List String)
  | .null => .ok []
  | .arr es => es.mapM fun e =>
      match e with
      | .str s => .ok s
      | _ => .error "cannot unmarshal value into Go value of type string"
  | _ => .error "cannot unmarshal value into Go value of type []string"

/-- Modelled from the spec: decoding one string-list field of a struct —
a missing key leaves the zero value (empty list). -/
def decodeField (fields : List (String × Json)) (key : String) :
    Except String (List String) :=
  match lookupField fields key with
  | none => .ok []
  | some j => decodeStringList j

/-- Modelled from the spec: decoding a JSON value into a `PolicyRule`
(spec section 6: apiGroups, resources, verbs, resourceNames, nonResourceURLs
arrays; absent fields decode to the empty set). -/
def decodePolicyRule : Json → Except String PolicyRule
  | .null => .ok ⟨[], [], [], [], []⟩
  | .obj fs => do
      let gs ← decodeField fs "apiGroups"
      let rs ← decodeField fs "resources"
      let vs ← decodeField fs "verbs"
      let ns ← decodeField fs "resourceNames"
      let us ← decodeField fs "nonResourceURLs"
      pure ⟨gs, rs, vs, ns, us⟩
  | _ => .error "cannot unmarshal value into Go value of type v1.PolicyRule"

/-- Modelled from the spec: decoding a JSON value into a `[]PolicyRule`. -/
def decodeRuleList : Json → Except String (List PolicyRule)
  | .null => .ok []
  | .arr es => es.mapM decodePolicyRule
  | _ => .error "cannot unmarshal value into Go value of type []v1.PolicyRule"

/-- Modelled from the spec: decoding the top-level `ValidationInput` object
of `tools/rbac-validator.go` — fields `userRules` and `referenceRules`, each
decoding to the empty rule set when the key is missing or null. -/
def decodeValidationInput : Json → Except String ValidationInput
  | .null => .ok ⟨[], []⟩
  | .obj fs => do
      let ur ← match lookupField fs "userRules" with
        | none => Except.ok []
        | some j => decodeRuleList j
      let rr ← match lookupField fs "referenceRules" with
        | none => Except.ok []
        | some j => decodeRuleList j
      pure ⟨ur, rr⟩
  | _ => .error "cannot unmarshal value into Go value of type main.ValidationInput"

lemma verbsCover_self (v : List String) : verbsCover v v = true := by
  simp only [verbsCover, Bool.or_eq_true, List.all_eq_true]
  exact Or.inr fun x hx => List.elem_eq_true_of_mem hx

lemma resourceNamesCover_self (n : List String) : resourceNamesCover n n = true := by
  cases n with
  | nil => rfl
  | cons x xs =>
      simp only [resourceNamesCover, Bool.or_eq_true, Bool.and_eq_true, List.all_eq_true]
      exact Or.inr ⟨by simp, fun a ha => List.elem_eq_true_of_mem ha⟩

lemma covers_self (a : AtomicRule) : covers a a = true := by
  cases a with
  | resource g r v n =>
      simp [covers, verbsCover_self, resourceNamesCover_self]
  | url u v =>
      simp [covers, urlCovers, verbsCover_self]

lemma checkCoverage_true_iff (R X : List PolicyRule) :
    (checkCoverage R X).1 = true ↔
      ∀ c ∈ X.flatMap decompose, ∃ o ∈ R.flatMap decompose, covers o c = true := by
  simp only [checkCoverage, List.isEmpty_iff, List.filter_eq_nil_iff, Bool.not_eq_true',
    Bool.not_eq_false, List.any_eq_true, List.mem_flatMap]

lemma covers_verbs (o c : AtomicRule) (h : covers o c = true) :
    o.verbs.contains "*" = true ∨ ∀ v ∈ c.verbs, v ∈ o.verbs := by
  cases o with
  | resource og ores ovs ons =>
      cases c with
      | resource cg cres cvs cns =>
          simp only [covers, Bool.and_eq_true] at h
          have hv := h.1.2
          simp only [verbsCover, Bool.or_eq_true, List.all_eq_true, AtomicRule.verbs] at hv ⊢
          rcases hv with hv | hv
          · exact Or.inl hv
          · exact Or.inr fun v hvm => by simpa using hv v hvm
      | url cu cvs => simp [covers] at h
  | url ou ovs =>
      cases c with
      | resource cg cres cvs cns => simp [covers] at h
      | url cu cvs =>
          simp only [covers, Bool.and_eq_true] at h
          have hv := h.2
          simp only [verbsCover, Bool.or_eq_true, List.all_eq_true, AtomicRule.verbs] at hv ⊢
          rcases hv with hv | hv
          · exact Or.inl hv
          · exact Or.inr fun v hvm => by simpa using hv v hvm

/-- Claim C5: the coverage result is `true` iff the list of uncovered requested
atoms is empty, and an empty requested rule set is always covered:
`checkCoverage R []` returns `(true, [])` for every reference set `R`. -/
theorem claim_C5_vacuous_truth :
    (∀ R X : List PolicyRule,
      (checkCoverage R X).1 = true ↔ (checkCoverage R X).2 = []) ∧
    (∀ R : List PolicyRule, checkCoverage R [] = (true, [])) := by
  constructor
  · intro R X
    simp [checkCoverage, List.isEmpty_iff]
  · intro R
    rfl

/-- Claim C6: coverage is reflexive — every rule set covers itself after
decomposition: `(checkCoverage R R).1 = true` for every rule set `R`. -/
theorem claim_C6_reflexivity (R : List PolicyRule) : (checkCoverage R R).1 = true := by
  rw [checkCoverage_true_iff]
  intro c hc
  exact ⟨c, hc, covers_self c⟩

/-- Claim C7: coverage is monotone in the reference rule set — adding a reference
rule never revokes coverage. -/
theorem claim_C7_reference_monotonicity (R X : List PolicyRule) (extra : PolicyRule)
    (h : (checkCoverage R X).1 = true) :
    (checkCoverage (R ++ [extra]) X).1 = true := by
  rw [checkCoverage_true_iff] at h ⊢
  intro c hc
  obtain ⟨o, ho, hco⟩ := h c hc
  refine ⟨o, ?_, hco⟩
  rw [List.flatMap_append]
  exact List.mem_append_left _ ho

/-- Witness for C7 at a concrete reference set, requested set and extra rule. -/
theorem claim_C7_reference_monotonicity_witness :
    (checkCoverage [⟨[""], ["pods"], ["get"], [], []⟩] [⟨[""], ["pods"], ["get"], [], []⟩]).1 = true ∧
    (checkCoverage ([⟨[""], ["pods"], ["get"], [], []⟩] ++ [⟨["*"], ["*"], ["*"], [], []⟩])
      [⟨[""], ["pods"], ["get"], [], []⟩]).1 = true :=
  ⟨by decide, claim_C7_reference_monotonicity _ _ _ (by decide)⟩

/-- Claim C4: on decode failure the adapter emits `covers=false` with a non-empty
error string and a non-zero exit code; for successfully decoded input the
coverage computation produces no error (the error field stays absent). -/
theorem claim_C4_decode_failure :
    (∀ e : String,
      (runAdapter (.error e)).1.covers = false ∧
      (∃ s, (runAdapter (.error e)).1.error = some s ∧ s ≠ "") ∧
      (runAdapter (.error e)).2 ≠ 0) ∧
    (∀ i : ValidationInput, (runAdapter (.ok i)).1.error = none) := by
  constructor
  · intro e
    refine ⟨rfl, ⟨"Error decoding input: " ++ e, rfl, ?_⟩, by simp [runAdapter]⟩
    intro hemp
    have hlen : ("Error decoding input: " ++ e).length = 0 := by rw [hemp]; rfl
    rw [String.length_append] at hlen
    have h22 : ("Error decoding input: " : String).length = 22 := rfl
    omega
  · intro i
    rfl

/-- Claim C8: for every structurally valid input the engine is total — the adapter
deterministically emits the coverage boolean with the error field absent and
exit code 0, and decomposition always yields exactly
|apiGroups|·|resources| + |nonResourceURLs| atoms. -/
theorem claim_C8_engine_total :
    (∀ i : ValidationInput,
      runAdapter (.ok i) =
        (⟨(checkCoverage i.referenceRules i.userRules).1, none⟩, 0)) ∧
    (∀ rule : PolicyRule, (decompose rule).length =
      rule.apiGroups.length * rule.resources.length + rule.nonResourceURLs.length) := by
  constructor
  · intro i
    rfl
  · intro rule
    simp only [decompose, List.length_append, List.length_flatMap]
    congr 1
    have hconst :
        (List.length ∘ fun g =>
            List.map (fun r => AtomicRule.resource g r rule.verbs rule.resourceNames)
              rule.resources) =
          fun _ => rule.resources.length := by
      funext g
      simp
    rw [hconst, List.map_const', List.sum_replicate, smul_eq_mul]
    simp

/-- Claim C9: for successfully decoded input the emitted record is fully determined
by the boolean returned by the coverage check; the uncovered-rule list is
discarded and never influences the output. -/
theorem claim_C9_output_determined_by_boolean (i j : ValidationInput)
    (h : (checkCoverage i.referenceRules i.userRules).1 =
         (checkCoverage j.referenceRules j.userRules).1) :
    runAdapter (.ok i) = runAdapter (.ok j) := by
  simp only [runAdapter, h]

/-- Witness for C9 at two concrete decoded inputs with equal coverage
booleans but different uncovered-rule lists on the engine's second return. -/
theorem claim_C9_output_determined_by_boolean_witness :
    (checkCoverage (ValidationInput.mk [] []).referenceRules
        (ValidationInput.mk [] []).userRules).1 =
      (checkCoverage (ValidationInput.mk [] [⟨[""], ["pods"], ["get"], [], []⟩]).referenceRules
        (ValidationInput.mk [] [⟨[""], ["pods"], ["get"], [], []⟩]).userRules).1 ∧
    runAdapter (.ok (ValidationInput.mk [] [])) =
      runAdapter (.ok (ValidationInput.mk [] [⟨[""], ["pods"], ["get"], [], []⟩])) :=
  ⟨by decide, claim_C9_output_determined_by_boolean _ _ (by decide)⟩

/-- Claim C1: a trailing `*` inside a non-`"*"` resource string is literal, never a
pattern — reference `resources=["pods/*"], verbs=["get"]` does not cover
requested `resources=["pods/log"], verbs=["get"]` (for any shared apiGroup),
and the owner's resource matches only by being exactly `"*"` or string-equal
to the candidate's resource. -/
theorem claim_C1_literal_resource_matching :
    (∀ g : String,
      (checkCoverage [⟨[g], ["pods/*"], ["get"], [], []⟩]
        [⟨[g], ["pods/log"], ["get"], [], []⟩]).1 = false) ∧
    (∀ og cg ores cres : String, ∀ ovs ons cvs cns : List String,
      covers (.resource og ores ovs ons) (.resource cg cres cvs cns) = true →
      ores = "*" ∨ ores = cres) := by
  constructor
  · intro g
    simp [checkCoverage, decompose, covers, verbsCover, resourceNamesCover]
  · intro og cg ores cres ovs ons cvs cns h
    simp only [covers, Bool.and_eq_true, Bool.or_eq_true, beq_iff_eq] at h
    exact h.1.1.2

/-- Witness for C1 applying the only-if direction at a concrete covering pair. -/
theorem claim_C1_literal_resource_matching_witness :
    covers (AtomicRule.resource "" "*" ["get"] [])
      (AtomicRule.resource "" "pods" ["get"] []) = true ∧
    (("*" : String) = "*" ∨ ("*" : String) = "pods") :=
  ⟨by decide,
    claim_C1_literal_resource_matching.2 "" "" "*" "pods" ["get"] [] ["get"] [] (by decide)⟩

/-- Claim C2: verbs are never unioned across distinct reference rules — the pair
`{resources:["r"],verbs:["get"]}`, `{resources:["r"],verbs:["list"]}` does not
cover `{resources:["r"],verbs:["get","list"]}`, and a covered requested atom
always has one single reference atom whose verb set contains `"*"` or all of
the candidate's verbs. -/
theorem claim_C2_verb_non_union :
    (∀ g : String,
      (checkCoverage [⟨[g], ["r"], ["get"], [], []⟩, ⟨[g], ["r"], ["list"], [], []⟩]
        [⟨[g], ["r"], ["get", "list"], [], []⟩]).1 = false) ∧
    (∀ (R X : List PolicyRule) (c : AtomicRule),
      (checkCoverage R X).1 = true → c ∈ X.flatMap decompose →
      ∃ o ∈ R.flatMap decompose, covers o c = true ∧
        (o.verbs.contains "*" = true ∨ ∀ v ∈ c.verbs, v ∈ o.verbs)) := by
  constructor
  · intro g
    simp [checkCoverage, decompose, covers, verbsCover, resourceNamesCover]
  · intro R X c h hc
    rw [checkCoverage_true_iff] at h
    obtain ⟨o, ho, hco⟩ := h c hc
    exact ⟨o, ho, hco, covers_verbs o c hco⟩

/-- Witness for C2 applying the single-rule-verb-superset part at a concrete
covered configuration. -/
theorem claim_C2_verb_non_union_witness :
    (checkCoverage [⟨[""], ["r"], ["get"], [], []⟩] [⟨[""], ["r"], ["get"], [], []⟩]).1 = true ∧
    AtomicRule.resource "" "r" ["get"] [] ∈
      ([⟨[""], ["r"], ["get"], [], []⟩] : List PolicyRule).flatMap decompose ∧
    ∃ o ∈ ([⟨[""], ["r"], ["get"], [], []⟩] : List PolicyRule).flatMap decompose,
      covers o (AtomicRule.resource "" "r" ["get"] []) = true ∧
      ((AtomicRule.verbs o).contains "*" = true ∨
        ∀ v ∈ (AtomicRule.resource "" "r" ["get"] []).verbs, v ∈ AtomicRule.verbs o) :=
  ⟨by decide, by decide,
    claim_C2_verb_non_union.2 [⟨[""], ["r"], ["get"], [], []⟩] [⟨[""], ["r"], ["get"], [], []⟩]
      (AtomicRule.resource "" "r" ["get"] []) (by decide) (by decide)⟩

/-- Claim C3: the resourceNames dimension is one-directional — empty owner names
cover anything, non-empty owner names require the candidate's names to be a
non-empty subset, and a candidate with empty names is never covered by an
owner with non-empty names even when group, resource and verbs all match;
with the spec's secrets examples. -/
theorem claim_C3_resource_names_one_directional :
    (∀ cns : List String, resourceNamesCover [] cns = true) ∧
    (∀ ons cns : List String, resourceNamesCover ons cns = true →
      ons = [] ∨ (cns ≠ [] ∧ ∀ n ∈ cns, n ∈ ons)) ∧
    (∀ (g r : String) (vs ons : List String), ons ≠ [] →
      covers (.resource g r vs ons) (.resource g r vs []) = false) ∧
    (checkCoverage [⟨[""], ["secrets"], ["get"], ["a"], []⟩]
      [⟨[""], ["secrets"], ["get"], ["a", "b"], []⟩]).1 = false ∧
    (checkCoverage [⟨[""], ["secrets"], ["get"], ["a"], []⟩]
      [⟨[""], ["secrets"], ["get"], ["a"], []⟩]).1 = true := by
  refine ⟨?_, ?_, ?_, by decide, by decide⟩
  · intro cns
    rfl
  · intro ons cns h
    cases ons with
    | nil => exact Or.inl rfl
    | cons x xs =>
        right
        simp only [resourceNamesCover, List.isEmpty_cons, Bool.false_or, Bool.and_eq_true,
          Bool.not_eq_true', List.all_eq_true] at h
        refine ⟨by simpa [List.isEmpty_iff] using h.1, fun n hn => by simpa using h.2 n hn⟩
  · intro g r vs ons hne
    cases ons with
    | nil => exact absurd rfl hne
    | cons x xs => simp [covers, resourceNamesCover]

/-- Witness for C3 applying the empty-candidate-names failure at a concrete
owner with a names constraint. -/
theorem claim_C3_resource_names_one_directional_witness :
    (["a"] : List String) ≠ [] ∧
    covers (AtomicRule.resource "" "secrets" ["get"] ["a"])
      (AtomicRule.resource "" "secrets" ["get"] []) = false :=
  ⟨by decide,
    claim_C3_resource_names_one_directional.2.2.1 "" "secrets" ["get"] ["a"] (by decide)⟩

/-- Claim C10: a JSON input object with both rule fields missing decodes to empty
rule sets rather than failing — on `{}` the adapter emits `covers=true` with
the error field absent and exits with code 0. -/
theorem claim_C10_missing_fields_decode_empty :
    decodeValidationInput (Json.obj []) = Except.ok ⟨[], []⟩ ∧
    runAdapter (decodeValidationInput (Json.obj [])) = (⟨true, none⟩, 0) :=
  ⟨rfl, rfl⟩

end RbacValidator
